import Mathlib

/-!
Verification of the 50Hertz / PyPSA grid comparison program.

The program normalizes the 50Hertz static network model table, merges
parallel circuits between the same substation pair, loads two PyPSA network
snapshots annotated with per-branch countries, and composes a layered folium
map. The development below embeds each of those transformations over exact
rational arithmetic (real arithmetic for the square-root capacity formula)
and proves the stated properties about them. Fallible steps of the program
(column selection, bus lookups) are embedded with Option or Except results,
so that an uncaught error of the program corresponds to a missing value
here; the float division by zero inside the parallel-impedance combination,
which yields infinity with no error, is embedded with an explicit infinity
value.
-/

namespace GridAnalysis

/-- Code-point lexicographic comparison of character lists, true iff the
first list is strictly smaller. This mirrors how Python compares strings
inside sorted. -/
def strLtb : List Char → List Char → Bool
  | [], [] => false
  | [], _ :: _ => true
  | _ :: _, [] => false
  | a :: as, b :: bs => if a < b then true else if b < a then false else strLtb as bs

/-- One raw row of the reference table after column selection, renaming and
capacity derivation (line 76 of the script): substation names, endpoint
coordinates and electrical fields, with MVA holding the derived capacity. -/
structure Row where
  Sub1 : String
  lon1 : ℚ
  lat1 : ℚ
  Sub2 : String
  lon2 : ℚ
  lat2 : ℚ
  MVA : ℚ
  kV : ℚ
  r : ℚ
  x : ℚ
  b : ℚ
  length : ℚ
deriving DecidableEq

/-- Join two names in code-point order, separated by one space: the result of
sorting the two endpoint names and joining them. -/
def joinSorted (a b : String) : String :=
  if strLtb b.data a.data then b ++ " " ++ a else a ++ " " ++ b

/-- The grouping key of a row (lines 79-82): endpoint substation names sorted
and joined with a space. -/
def lineName (row : Row) : String := joinSorted row.Sub1 row.Sub2

/-- Equivalent parallel resistance of a group column (lines 84-88):
1 / sum(1 / series). -/
def parallel_resistance (series : List ℚ) : ℚ :=
  1 / (series.map (fun v => 1 / v)).sum

/-- The pandas mean aggregator over one group column. -/
def mean (l : List ℚ) : ℚ := l.sum / l.length

/-- The pandas first aggregator over one group column of names. -/
def firstAgg (l : List String) : String := l.headD ""

/-- One merged record of the reference table after the groupby aggregation
and reset_index (lines 90-107), in the column order of the script. -/
structure MergedRow where
  line_name : String
  lon1 : ℚ
  lon2 : ℚ
  lat1 : ℚ
  lat2 : ℚ
  MVA : ℚ
  kV : ℚ
  r : ℚ
  x : ℚ
  b : ℚ
  length : ℚ
  Sub1 : String
  Sub2 : String
deriving DecidableEq

/-- Aggregation of one group (lines 90-107): coordinates, voltage,
susceptance and length average; capacity sums; resistance and reactance
combine in parallel; substation names take the first group member; the
grouping key is restored as a column by reset_index. -/
def aggregate (k : String) (g : List Row) : MergedRow where
  line_name := k
  lon1 := mean (g.map Row.lon1)
  lon2 := mean (g.map Row.lon2)
  lat1 := mean (g.map Row.lat1)
  lat2 := mean (g.map Row.lat2)
  MVA := (g.map Row.MVA).sum
  kV := mean (g.map Row.kV)
  r := parallel_resistance (g.map Row.r)
  x := parallel_resistance (g.map Row.x)
  b := mean (g.map Row.b)
  length := mean (g.map Row.length)
  Sub1 := firstAgg (g.map Row.Sub1)
  Sub2 := firstAgg (g.map Row.Sub2)

/-- The distinct grouping keys of the table. pandas additionally sorts the
group keys; the order of the keys is irrelevant to every property proved
below, so the distinct keys are kept in first-listed order here. -/
def groupKeys (rows : List Row) : List String := (rows.map lineName).dedup

/-- The groupby aggregation (lines 90-107): one merged record per distinct
line_name, aggregated over the rows carrying that key, in table order. -/
def groupbyAgg (rows : List Row) : List MergedRow :=
  (groupKeys rows).map (fun k => aggregate k (rows.filter (fun row => lineName row = k)))

/-- Option-valued sequencing of a fallible map over a list: the first failing
element makes the whole computation fail, as an uncaught error does. -/
def mapO {α β : Type} (f : α → Option β) : List α → Option (List β)
  | [] => some []
  | a :: as => do
    let b ← f a
    let bs ← mapO f as
    some (b :: bs)

/-- A value of the float pipeline inside parallel_resistance, restricted to
what that computation can reach from rational inputs: an exact finite value
or positive infinity. Dividing one by zero on a float Series yields infinity
with no error (only a runtime warning), so the value is first class here.
Negative zero, negative infinity and NaN are unreachable from rational
inputs through the operations used (reciprocal and addition) and are not
represented. -/
inductive FloatVal where
  | fin (q : ℚ) : FloatVal
  | inf : FloatVal
deriving DecidableEq

/-- Addition on the reachable float values: finite plus finite is exact,
anything plus infinity is infinity. -/
def FloatVal.add : FloatVal → FloatVal → FloatVal
  | fin a, fin b => fin (a + b)
  | _, _ => inf

/-- One divided by a value, with the numpy float semantics: one over zero is
infinity (no error), one over infinity is zero, otherwise exact. -/
def FloatVal.oneDiv : FloatVal → FloatVal
  | fin q => if q = 0 then inf else fin (1 / q)
  | inf => fin 0

/-- Line 88 of the script, 1 / sum(1 / series), under the float semantics of
division by zero: every reciprocal is taken unguarded, the reciprocals are
summed left to right from zero, and one is divided by the sum. -/
def parallel_resistanceF (series : List ℚ) : FloatVal :=
  ((series.map fun v => FloatVal.oneDiv (.fin v)).foldl FloatVal.add (.fin 0)).oneDiv

/-- The twelve (group, field) header pairs selected from the two-level-header
export (lines 41-54 of the script). -/
def requiredPairs : List (String × String) := [
  ("Substation_1", "Full_name"),
  ("Longitude_Substation_1", "Unnamed: 5_level_1"),
  ("Latitude_Substation_1", "Unnamed: 6_level_1"),
  ("Substation_2", "Full_name"),
  ("Longitude_Substation_2", "Unnamed: 9_level_1"),
  ("Latitude_Substation_2", "Unnamed: 10_level_1"),
  ("Unnamed: 18_level_0", "Fixed"),
  ("Unnamed: 11_level_0", "Voltage_level(kV)"),
  ("Electrical Parameters", "Resistance_R(Ω)"),
  ("Unnamed: 22_level_0", "Reactance_X(Ω)"),
  ("Unnamed: 23_level_0", "Susceptance_B(μS)"),
  ("Unnamed: 24_level_0", "Length_(km)")]

/-- Column selection (lines 41-54): pick the twelve expected columns, in
order, from a raw table given as a list of header-pair/column pairs; a
missing column is a KeyError, so the whole selection fails and no partial
table is produced. -/
def selectColumns {α : Type} (tbl : List ((String × String) × α)) :
    Option (List ((String × String) × α)) :=
  mapO (fun key => (tbl.find? (fun c => c.1 = key)).map (fun c => (key, c.2))) requiredPairs

/-- Entrywise capacity derivation (line 73) in exact real arithmetic: each
(current rating, voltage) pair of the table becomes
current * voltage / 1000 * sqrt 3. -/
noncomputable def deriveMVA : List (ℝ × ℝ) → List ℝ
  | [] => []
  | p :: rest => p.1 * p.2 / 1000 * Real.sqrt 3 :: deriveMVA rest

/-- A bus of a loaded PyPSA network: index, coordinates (x is longitude, y is
latitude), carrier and country, all present in the snapshot file. -/
structure Bus where
  id : String
  x : ℚ
  y : ℚ
  carrier : String
  country : String
deriving DecidableEq

/-- A line of a loaded network. The country field is the one attribute the
script adds (none before loading). -/
structure Line where
  id : String
  bus0 : String
  bus1 : String
  s_nom : ℚ
  v_nom : ℚ
  r : ℚ
  x : ℚ
  length : ℚ
  country : Option String
deriving DecidableEq

/-- A link of a loaded network; country as for lines. -/
structure Link where
  id : String
  bus0 : String
  bus1 : String
  p_nom : ℚ
  p_nom_max : ℚ
  carrier : String
  country : Option String
deriving DecidableEq

/-- A loaded network snapshot. -/
structure Network where
  buses : List Bus
  lines : List Line
  links : List Link
deriving DecidableEq

/-- Country lookup by bus index, the Series.map of lines 113-114 and 119-120:
an index absent from the bus table maps to a missing value, never to an
error. -/
def lookupBusCountry (buses : List Bus) (b : String) : Option String :=
  (buses.find? (fun bu => bu.id = b)).map Bus.country

/-- Lines 113-114 and 119-120: attach to every line and every link the
country of its bus0. -/
def annotateNetwork (net : Network) : Network where
  buses := net.buses
  lines := net.lines.map (fun l => { l with country := lookupBusCountry net.buses l.bus0 })
  links := net.links.map (fun l => { l with country := lookupBusCountry net.buses l.bus0 })

/-- A rendered folium marker: popup text, location as latitude/longitude, and
icon color. -/
structure Marker where
  popup : String
  lat : ℚ
  lon : ℚ
  color : String
deriving DecidableEq

/-- A rendered polyline between two latitude/longitude pairs. The popup is
kept as the index text plus the numeric values interpolated into the html
string, in order. -/
structure Poly where
  locA : ℚ × ℚ
  locB : ℚ × ℚ
  popupIndex : String
  popupVals : List ℚ
  color : String
deriving DecidableEq

/-- A named overlay layer: one MarkerCluster added to the map. -/
structure Layer where
  name : String
  markers : List Marker
  polylines : List Poly
deriving DecidableEq

/-- The composed folium map: initial center plus the named overlay layers in
the order they are added to the map. -/
structure FoliumMap where
  center : ℚ × ℚ
  layers : List Layer
deriving DecidableEq

/-- The bus markers of one model (lines 126-154): restrict to country DE,
skip carriers other than AC and DC, and draw one marker per surviving bus
with the bus index as popup at location (y, x). -/
def busMarkersModel (net : Network) (color : String) : List Marker :=
  ((net.buses.filter (fun bu => bu.country = "DE")).filter
      (fun bu => bu.carrier = "AC" ∨ bu.carrier = "DC")).map
    (fun bu => { popup := bu.id, lat := bu.y, lon := bu.x, color := color })

/-- One if-block of the 50Hertz marker loop (lines 161-179): when the name
was not seen yet, draw one red marker at the given coordinates and append the
name to the seen list. -/
def markerStep (nm : String) (la lo : ℚ) (seen : List String) :
    List Marker × List String :=
  if nm ∈ seen then ([], seen)
  else ([{ popup := nm, lat := la, lon := lo, color := "red" }], seen ++ [nm])

/-- The 50Hertz marker loop (lines 156-179): walk the merged rows keeping a
seen list of already-drawn substation names, handling Sub1 of each row and
then Sub2 against the updated list. -/
def busMarkers50 : List MergedRow → List String → List Marker
  | [], _ => []
  | row :: rest, seen =>
    let s1 := markerStep row.Sub1 row.lat1 row.lon1 seen
    let s2 := markerStep row.Sub2 row.lat2 row.lon2 s1.2
    s1.1 ++ s2.1 ++ busMarkers50 rest s2.2

/-- The endpoint name/coordinate triples of the merged table, row by row, in
the order the marker loop inspects them. -/
def subEntries (rows : List MergedRow) : List (String × ℚ × ℚ) :=
  rows.flatMap (fun row => [(row.Sub1, row.lat1, row.lon1), (row.Sub2, row.lat2, row.lon2)])

/-- The marker loop flattened to one markerStep per endpoint entry. -/
def markersFold : List (String × ℚ × ℚ) → List String → List Marker
  | [], _ => []
  | e :: es, seen =>
    let s := markerStep e.1 e.2.1 e.2.2 seen
    s.1 ++ markersFold es s.2

/-- The 50Hertz branch layer (lines 245-256): one red polyline per merged
record between its stored endpoint coordinates, with capacity, length,
voltage, resistance and reactance in the popup. -/
def lines50 (netz : List MergedRow) : List Poly :=
  netz.map (fun row =>
    { locA := (row.lat1, row.lon1), locB := (row.lat2, row.lon2),
      popupIndex := "", popupVals := [row.MVA, row.length, row.kV, row.r, row.x],
      color := "red" })

/-- Coordinate lookup by bus index, the buses.loc of the branch loops: a
missing index raises a KeyError that aborts the run. -/
def lookupCoords (buses : List Bus) (b : String) : Except String (ℚ × ℚ) :=
  match buses.find? (fun bu => bu.id = b) with
  | some bu => .ok (bu.y, bu.x)
  | none => .error ("KeyError: " ++ b)

/-- Sequential fallible map: the first error aborts the remaining loop
iterations, exactly as an uncaught exception does. -/
def mapE {α β : Type} (f : α → Except String β) : List α → Except String (List β)
  | [] => .ok []
  | a :: as => do
    let b ← f a
    let bs ← mapE f as
    .ok (b :: bs)

/-- One polyline of a model line loop (lines 183-207): endpoint coordinates
looked up from the bus table, electrical parameters in the popup. -/
def polyOfLine (buses : List Bus) (color : String) (l : Line) : Except String Poly := do
  let cFrom ← lookupCoords buses l.bus0
  let cTo ← lookupCoords buses l.bus1
  .ok { locA := cFrom, locB := cTo, popupIndex := "",
        popupVals := [l.s_nom, l.length, l.v_nom, l.r, l.x], color := color }

/-- One polyline of a model link loop (lines 211-241): endpoint coordinates
looked up from the bus table, index and capacities in the popup. -/
def polyOfLink (buses : List Bus) (color : String) (l : Link) : Except String Poly := do
  let cFrom ← lookupCoords buses l.bus0
  let cTo ← lookupCoords buses l.bus1
  .ok { locA := cFrom, locB := cTo, popupIndex := l.id,
        popupVals := [l.p_nom, l.p_nom_max], color := color }

/-- The initial map view (line 123), centered on the first PyPSA-Eur bus: an
empty bus table is an IndexError. -/
def mapCenter (net : Network) : Except String (ℚ × ℚ) :=
  match net.buses with
  | [] => .error "IndexError"
  | bu :: _ => .ok (bu.y, bu.x)

/-- The lines of one model with country DE (the query of the line loops). -/
def linesDE (net : Network) : List Line :=
  net.lines.filter (fun l => l.country = some "DE")

/-- The links of one model with country DE and carrier AC or DC; the carrier
check of the link loops runs before any coordinate lookup. -/
def linksDE (net : Network) : List Link :=
  (net.links.filter (fun l => l.country = some "DE")).filter
    (fun l => l.carrier = "AC" ∨ l.carrier = "DC")

/-- The map composer (lines 123-260): center on the first PyPSA-Eur bus, then
add the eight overlay layers in source order; an unresolvable endpoint of a
rendered branch aborts the run. -/
def composeMap (netz : List MergedRow) (n m : Network) : Except String FoliumMap := do
  let c ← mapCenter n
  let eurLines ← mapE (polyOfLine n.buses "gray") (linesDE n)
  let earthLines ← mapE (polyOfLine m.buses "black") (linesDE m)
  let earthLinks ← mapE (polyOfLink m.buses "black") (linksDE m)
  let eurLinks ← mapE (polyOfLink n.buses "gray") (linksDE n)
  .ok { center := c, layers := [
    { name := "PyPSA-Eur buses", markers := busMarkersModel n "gray", polylines := [] },
    { name := "PyPSA-Earth buses", markers := busMarkersModel m "black", polylines := [] },
    { name := "50Hertz buses", markers := busMarkers50 netz [], polylines := [] },
    { name := "PyPSA-Eur lines", markers := [], polylines := eurLines },
    { name := "PyPSA-Earth lines", markers := [], polylines := earthLines },
    { name := "PyPSA-Earth links", markers := [], polylines := earthLinks },
    { name := "PyPSA-Eur links", markers := [], polylines := eurLinks },
    { name := "50Hertz lines", markers := [], polylines := lines50 netz } ] }

/-- The whole run: merge the normalized reference table, annotate both models
with bus0 countries, and compose the map. -/
def runPipeline (raw : List Row) (n0 m0 : Network) : Except String FoliumMap :=
  composeMap (groupbyAgg raw) (annotateNetwork n0) (annotateNetwork m0)

/-- Whether a fallible computation succeeded. -/
def isOkE {ε α : Type} : Except ε α → Bool
  | .ok _ => true
  | .error _ => false

/-- A network snapshot whose branches all reference existing buses. -/
def wellFormed (net : Network) : Prop :=
  (∀ l ∈ net.lines, (∃ bu ∈ net.buses, bu.id = l.bus0) ∧ (∃ bu ∈ net.buses, bu.id = l.bus1)) ∧
  (∀ l ∈ net.links, (∃ bu ∈ net.buses, bu.id = l.bus0) ∧ (∃ bu ∈ net.buses, bu.id = l.bus1))

instance (net : Network) : Decidable (wellFormed net) := by
  unfold wellFormed; infer_instance

/-! Helper lemmas about the string comparison and the grouping. -/

theorem strLtb_asymm : ∀ (a b : List Char), strLtb a b = true → strLtb b a = false := by
  intro a
  induction a with
  | nil =>
    intro b h
    cases b with
    | nil => simpa [strLtb] using h
    | cons y ys => simp [strLtb]
  | cons x xs ih =>
    intro b h
    cases b with
    | nil => simp [strLtb] at h
    | cons y ys =>
      simp only [strLtb] at h ⊢
      rcases lt_trichotomy x y with h1 | h1 | h1
      · simp [lt_asymm h1, h1]
      · subst h1
        simp only [lt_irrefl, if_false] at h ⊢
        exact ih ys h
      · simp [h1, lt_asymm h1] at h

theorem strLtb_eq_of_not : ∀ (a b : List Char),
    strLtb a b = false → strLtb b a = false → a = b := by
  intro a
  induction a with
  | nil =>
    intro b h1 h2
    cases b with
    | nil => rfl
    | cons y ys => simp [strLtb] at h1
  | cons x xs ih =>
    intro b h1 h2
    cases b with
    | nil => simp [strLtb] at h2
    | cons y ys =>
      simp only [strLtb] at h1 h2
      rcases lt_trichotomy x y with hc | hc | hc
      · simp [hc] at h1
      · subst hc
        simp only [lt_irrefl, if_false] at h1 h2
        exact congrArg (x :: ·) (ih ys h1 h2)
      · simp [hc] at h2

theorem string_data_inj {a b : String} (h : a.data = b.data) : a = b := by
  cases a; cases b; simp_all

theorem joinSorted_comm (a b : String) : joinSorted a b = joinSorted b a := by
  unfold joinSorted
  cases h1 : strLtb b.data a.data <;> cases h2 : strLtb a.data b.data
  · have : a.data = b.data := strLtb_eq_of_not a.data b.data h2 h1
    rw [string_data_inj this]
  · rfl
  · rfl
  · rw [strLtb_asymm b.data a.data h1] at h2
    exact absurd h2 (by simp)

theorem aggregate_line_name (k : String) (g : List Row) :
    (aggregate k g).line_name = k := rfl

theorem groupbyAgg_map_line_name (rows : List Row) :
    (groupbyAgg rows).map MergedRow.line_name = groupKeys rows := by
  unfold groupbyAgg
  rw [List.map_map]
  exact (List.map_congr_left fun k _ => rfl).trans (List.map_id _)

theorem groupKeys_nodup (rows : List Row) : (groupKeys rows).Nodup :=
  List.nodup_dedup _

theorem lineName_mem_groupKeys {rows : List Row} {row : Row} (h : row ∈ rows) :
    lineName row ∈ groupKeys rows :=
  List.mem_dedup.mpr (List.mem_map_of_mem lineName h)

/-! The claims about the reference-table merging. -/

/-- C1: two rows naming the same substation pair in either endpoint order get
the same line_name (the sorted, space-joined pair), and the groupby
aggregation merges every key into exactly one record, so line_name is a
unique key of the merged table. -/
theorem C1_line_name_unique_key (rows : List Row) (r1 r2 : Row)
    (h1 : r1 ∈ rows) (h2 : r2 ∈ rows)
    (hs1 : r2.Sub1 = r1.Sub2) (hs2 : r2.Sub2 = r1.Sub1) :
    lineName r1 = lineName r2 ∧
    ((groupbyAgg rows).map MergedRow.line_name).Nodup ∧
    ((groupbyAgg rows).map MergedRow.line_name).count (lineName r1) = 1 := by
  refine ⟨?_, ?_, ?_⟩
  · unfold lineName
    rw [hs1, hs2]
    exact joinSorted_comm r1.Sub1 r1.Sub2
  · rw [groupbyAgg_map_line_name]
    exact groupKeys_nodup rows
  · rw [groupbyAgg_map_line_name]
    exact List.count_eq_one_of_mem (groupKeys_nodup rows) (lineName_mem_groupKeys h1)

theorem C1_line_name_unique_key_witness :
    lineName ⟨"A", 1, 2, "B", 3, 4, 100, 110, 10, 10, 1, 50⟩ =
      lineName ⟨"B", 3, 4, "A", 1, 2, 100, 110, 10, 10, 1, 50⟩ ∧
    ((groupbyAgg [⟨"A", 1, 2, "B", 3, 4, 100, 110, 10, 10, 1, 50⟩,
        ⟨"B", 3, 4, "A", 1, 2, 100, 110, 10, 10, 1, 50⟩]).map MergedRow.line_name).Nodup ∧
    ((groupbyAgg [⟨"A", 1, 2, "B", 3, 4, 100, 110, 10, 10, 1, 50⟩,
        ⟨"B", 3, 4, "A", 1, 2, 100, 110, 10, 10, 1, 50⟩]).map MergedRow.line_name).count
      (lineName ⟨"A", 1, 2, "B", 3, 4, 100, 110, 10, 10, 1, 50⟩) = 1 :=
  C1_line_name_unique_key
    [⟨"A", 1, 2, "B", 3, 4, 100, 110, 10, 10, 1, 50⟩,
     ⟨"B", 3, 4, "A", 1, 2, 100, 110, 10, 10, 1, 50⟩]
    ⟨"A", 1, 2, "B", 3, 4, 100, 110, 10, 10, 1, 50⟩
    ⟨"B", 3, 4, "A", 1, 2, 100, 110, 10, 10, 1, 50⟩
    (by decide) (by decide) (by decide) (by decide)

/-- C2: the aggregation rule for resistance and reactance is exactly
parallel_resistance, which computes 1 / sum(1/value) over the group; two
circuits of 10 merge to exactly 5, and a singleton group of R stays R. -/
theorem C2_parallel_combination :
    (∀ (k : String) (g : List Row),
        (aggregate k g).r = parallel_resistance (g.map Row.r) ∧
        (aggregate k g).x = parallel_resistance (g.map Row.x)) ∧
    parallel_resistance [10, 10] = 5 ∧
    (∀ R : ℚ, parallel_resistance [R] = R) := by
  refine ⟨fun k g => ⟨rfl, rfl⟩, by norm_num [parallel_resistance], fun R => ?_⟩
  simp [parallel_resistance, one_div_one_div]

/-- C9: when the group of a key consists of exactly one row and its reversed
duplicate, each merged endpoint coordinate is the positional column-wise mean
of the two rows, while both substation names come from the first row, so the
stored coordinates are averages of the coordinates of the two distinct
substations. -/
theorem C9_reversed_pair_positional_mean (rows : List Row) (k : String) (r1 r2 : Row)
    (hg : rows.filter (fun row => lineName row = k) = [r1, r2])
    (hs1 : r2.Sub1 = r1.Sub2) (hs2 : r2.Sub2 = r1.Sub1) :
    ∃ mr ∈ groupbyAgg rows, mr.line_name = k ∧
      mr.lon1 = (r1.lon1 + r2.lon1) / 2 ∧ mr.lat1 = (r1.lat1 + r2.lat1) / 2 ∧
      mr.lon2 = (r1.lon2 + r2.lon2) / 2 ∧ mr.lat2 = (r1.lat2 + r2.lat2) / 2 ∧
      mr.Sub1 = r1.Sub1 ∧ mr.Sub2 = r1.Sub2 := by
  have hr1f : r1 ∈ rows.filter (fun row => lineName row = k) := by
    rw [hg]; exact List.mem_cons_self _ _
  have hr1m := List.mem_filter.mp hr1f
  have hk1 : lineName r1 = k := by simpa using hr1m.2
  have hkmem : k ∈ groupKeys rows := hk1 ▸ lineName_mem_groupKeys hr1m.1
  refine ⟨aggregate k (rows.filter (fun row => lineName row = k)),
    List.mem_map_of_mem _ hkmem, rfl, ?_, ?_, ?_, ?_, ?_, ?_⟩ <;>
    rw [hg] <;> simp [aggregate, mean, firstAgg]

theorem C9_reversed_pair_positional_mean_witness :
    ∃ mr ∈ groupbyAgg [⟨"A", 0, 2, "B", 10, 4, 100, 110, 10, 10, 1, 50⟩,
        ⟨"B", 10, 4, "A", 0, 2, 100, 110, 10, 10, 1, 50⟩], mr.line_name = "A B" ∧
      mr.lon1 = (0 + 10) / 2 ∧ mr.lat1 = (2 + 4) / 2 ∧
      mr.lon2 = (10 + 0) / 2 ∧ mr.lat2 = (4 + 2) / 2 ∧
      mr.Sub1 = "A" ∧ mr.Sub2 = "B" :=
  C9_reversed_pair_positional_mean
    [⟨"A", 0, 2, "B", 10, 4, 100, 110, 10, 10, 1, 50⟩,
     ⟨"B", 10, 4, "A", 0, 2, 100, 110, 10, 10, 1, 50⟩] "A B"
    ⟨"A", 0, 2, "B", 10, 4, 100, 110, 10, 10, 1, 50⟩
    ⟨"B", 10, 4, "A", 0, 2, 100, 110, 10, 10, 1, 50⟩
    (by decide) (by decide) (by decide)

/-! Helper lemmas about fallible maps. -/

theorem mapO_none_of_exists {α β : Type} {f : α → Option β} :
    ∀ {l : List α}, (∃ a ∈ l, f a = none) → mapO f l = none := by
  intro l
  induction l with
  | nil => rintro ⟨a, ha, _⟩; exact absurd ha (List.not_mem_nil a)
  | cons a as ih =>
    rintro ⟨w, hw, hfw⟩
    rcases List.mem_cons.mp hw with hwa | hwm
    · subst hwa
      simp [mapO, hfw]
    · cases hfa : f a with
      | none => simp [mapO, hfa]
      | some b => simp [mapO, hfa, ih ⟨w, hwm, hfw⟩]

theorem mapO_fst_eq {α β : Type} {f : α → Option (α × β)} :
    ∀ {l : List α}, (∀ a ∈ l, ∃ b, f a = some (a, b)) →
      ∃ out, mapO f l = some out ∧ out.map (fun c => c.1) = l := by
  intro l
  induction l with
  | nil => exact fun _ => ⟨[], rfl, rfl⟩
  | cons a as ih =>
    intro h
    obtain ⟨b, hb⟩ := h a (List.mem_cons_self a as)
    obtain ⟨out, ho, hm⟩ := ih fun x hx => h x (List.mem_cons_of_mem a hx)
    exact ⟨(a, b) :: out, by simp [mapO, hb, ho], by simp [hm]⟩

theorem FloatVal.add_inf (a : FloatVal) : FloatVal.add a .inf = .inf := by
  cases a <;> rfl

theorem FloatVal.inf_add (a : FloatVal) : FloatVal.add .inf a = .inf := by
  cases a <;> rfl

theorem floatSum_fin : ∀ (g : List ℚ), (∀ v ∈ g, v ≠ 0) → ∀ acc : ℚ,
    ((g.map fun v => FloatVal.oneDiv (.fin v)).foldl FloatVal.add (.fin acc)) =
      .fin (acc + (g.map fun v => 1 / v).sum) := by
  intro g
  induction g with
  | nil => intro _ acc; simp
  | cons v g ih =>
    intro hnz acc
    have hv : v ≠ 0 := hnz v (List.mem_cons_self v g)
    have hhead : FloatVal.oneDiv (.fin v) = .fin (1 / v) := by
      simp [FloatVal.oneDiv, hv]
    simp only [List.map_cons, List.foldl_cons, List.sum_cons, hhead, FloatVal.add]
    rw [ih (fun x hx => hnz x (List.mem_cons_of_mem v hx)) (acc + 1 / v)]
    congr 1
    ring

theorem floatSum_inf : ∀ (l : List FloatVal) (acc : FloatVal),
    (FloatVal.inf ∈ l ∨ acc = .inf) → l.foldl FloatVal.add acc = .inf := by
  intro l
  induction l with
  | nil =>
    intro acc h
    rcases h with h | h
    · exact absurd h (List.not_mem_nil _)
    · simpa using h
  | cons x l ih =>
    intro acc h
    simp only [List.foldl_cons]
    rcases h with h | h
    · rcases List.mem_cons.mp h with rfl | h2
      · exact ih _ (Or.inr (FloatVal.add_inf acc))
      · exact ih _ (Or.inl h2)
    · subst h
      exact ih _ (Or.inr (FloatVal.inf_add x))

/-- C10 fails as stated: under the float semantics of line 88 the division by
zero yields infinity with no error, the reciprocal sum becomes infinite, and
a group containing a zero reaches the definite, well-defined result 0 (the
short-circuit limit) instead of failing. -/
theorem C10_counterexample : parallel_resistanceF [0, 10] = .fin 0 := by rfl

/-- C10 amended: the divisions of parallel_resistance are unguarded, and under
the float semantics of the script the function is total everywhere: on a
group of nonzero values whose reciprocals do not sum to zero it returns
exactly the 1 / sum(1/value) used by the aggregation; a group containing a
zero makes the division yield infinity and the result is the definite value
0, not an error; a nonzero group whose reciprocals cancel returns infinity. -/
theorem C10_unguarded_division :
    (∀ g : List ℚ, (∀ v ∈ g, v ≠ 0) → (g.map fun v => 1 / v).sum ≠ 0 →
        parallel_resistanceF g = .fin (parallel_resistance g)) ∧
    (∀ g : List ℚ, (∃ v ∈ g, v = 0) → parallel_resistanceF g = .fin 0) ∧
    (∀ g : List ℚ, (∀ v ∈ g, v ≠ 0) → (g.map fun v => 1 / v).sum = 0 →
        parallel_resistanceF g = .inf) := by
  refine ⟨?_, ?_, ?_⟩
  · intro g hnz hs
    unfold parallel_resistanceF
    rw [floatSum_fin g hnz 0, zero_add]
    simp only [FloatVal.oneDiv, if_neg hs]
    rfl
  · rintro g ⟨v, hv, hv0⟩
    have hm : FloatVal.inf ∈ g.map fun v => FloatVal.oneDiv (.fin v) :=
      List.mem_map.mpr ⟨v, hv, by simp [FloatVal.oneDiv, hv0]⟩
    unfold parallel_resistanceF
    rw [floatSum_inf _ _ (Or.inl hm)]
    rfl
  · intro g hnz hs
    unfold parallel_resistanceF
    rw [floatSum_fin g hnz 0, zero_add, hs]
    simp [FloatVal.oneDiv]

theorem C10_unguarded_division_witness :
    parallel_resistanceF [10, 10] = .fin (parallel_resistance [10, 10]) ∧
    parallel_resistanceF [0, 5] = .fin 0 ∧
    parallel_resistanceF [1, -1] = .inf :=
  ⟨C10_unguarded_division.1 [10, 10] (by norm_num) (by norm_num),
   C10_unguarded_division.2.1 [0, 5] ⟨0, by norm_num, rfl⟩,
   C10_unguarded_division.2.2 [1, -1] (by norm_num) (by norm_num)⟩

/-- C8: there are exactly twelve expected header pairs; the selection fails,
producing no partial table, whenever one expected pair is absent from the
input, and succeeds with precisely the twelve columns in their expected order
whenever every pair is present. -/
theorem C8_twelve_columns_or_abort {α : Type} :
    requiredPairs.length = 12 ∧
    (∀ tbl : List ((String × String) × α),
        (∃ k ∈ requiredPairs, ∀ c ∈ tbl, c.1 ≠ k) → selectColumns tbl = none) ∧
    (∀ tbl : List ((String × String) × α),
        (∀ k ∈ requiredPairs, ∃ c ∈ tbl, c.1 = k) →
        ∃ out, selectColumns tbl = some out ∧ out.map (fun c => c.1) = requiredPairs) := by
  refine ⟨rfl, ?_, ?_⟩
  · rintro tbl ⟨k, hk, hmiss⟩
    refine mapO_none_of_exists ⟨k, hk, ?_⟩
    have : tbl.find? (fun c => c.1 = k) = none :=
      List.find?_eq_none.mpr fun c hc => by simpa using hmiss c hc
    simp [this]
  · intro tbl hall
    refine mapO_fst_eq fun k hk => ?_
    obtain ⟨c, hc, hck⟩ := hall k hk
    have : (tbl.find? (fun c => c.1 = k)).isSome :=
      List.find?_isSome.mpr ⟨c, hc, by simp [hck]⟩
    obtain ⟨c0, hc0⟩ := Option.isSome_iff_exists.mp this
    exact ⟨c0.2, by simp [hc0]⟩

theorem C8_twelve_columns_or_abort_witness :
    (∃ out, selectColumns (requiredPairs.map fun k => (k, (0 : ℚ))) = some out ∧
      out.map (fun c => c.1) = requiredPairs) ∧
    selectColumns ([] : List ((String × String) × ℚ)) = none :=
  ⟨C8_twelve_columns_or_abort.2.2 (requiredPairs.map fun k => (k, (0 : ℚ))) (by decide),
   C8_twelve_columns_or_abort.2.1 [] (by decide)⟩

/-- C6: the derived thermal capacity of every reference row is
current rating * voltage / 1000 * sqrt 3, and a current rating of 1000 A at
110 kV yields a capacity within 0.01 of 190.53. -/
theorem C6_capacity_derivation :
    (∀ rows : List (ℝ × ℝ),
        deriveMVA rows = rows.map fun p => p.1 * p.2 / 1000 * Real.sqrt 3) ∧
    |(deriveMVA [(1000, 110)]).headD 0 - 190.53| < 0.01 := by
  constructor
  · intro rows
    induction rows with
    | nil => rfl
    | cons p rest ih => simp [deriveMVA, ih]
  · have hv : (deriveMVA [(1000, 110)]).headD 0 = 110 * Real.sqrt 3 := by
      show (1000 : ℝ) * 110 / 1000 * Real.sqrt 3 = 110 * Real.sqrt 3
      norm_num
    rw [hv]
    have h := Real.sq_sqrt (by norm_num : (0 : ℝ) ≤ 3)
    have hpos := Real.sqrt_nonneg 3
    rw [abs_lt]
    constructor <;> nlinarith [h, hpos, sq_nonneg (Real.sqrt 3 - 1.7320508)]

/-! Helper lemmas about the model loader. -/

theorem annotateNetwork_buses (net : Network) :
    (annotateNetwork net).buses = net.buses := rfl

theorem annotateNetwork_lines (net : Network) :
    (annotateNetwork net).lines =
      net.lines.map fun l => { l with country := lookupBusCountry net.buses l.bus0 } := rfl

theorem annotateNetwork_links (net : Network) :
    (annotateNetwork net).links =
      net.links.map fun l => { l with country := lookupBusCountry net.buses l.bus0 } := rfl

/-- C3 as stated is false: annotating a model whose line references a bus
index absent from the bus table does not abort; the line is silently given a
missing country, and the subsequent map composition still succeeds. -/
theorem C3_counterexample :
    ((annotateNetwork ⟨[⟨"b1", 10, 50, "AC", "DE"⟩],
        [⟨"l1", "zz", "b1", 100, 110, 1, 2, 30, none⟩], []⟩).lines.map Line.country
      = [none]) ∧
    isOkE (composeMap []
      (annotateNetwork ⟨[⟨"b1", 10, 50, "AC", "DE"⟩],
        [⟨"l1", "zz", "b1", 100, 110, 1, 2, 30, none⟩], []⟩)
      (annotateNetwork ⟨[⟨"b1", 10, 50, "AC", "DE"⟩],
        [⟨"l1", "zz", "b1", 100, 110, 1, 2, 30, none⟩], []⟩)) = true := by
  constructor <;> rfl

/-- C3 amended: a line or link whose bus0 is absent from the bus table is
silently assigned the missing country none by the Series.map lookup; the
derivation never fails and the annotated element stays in the model. -/
theorem C3_missing_bus_silent_none (net : Network) :
    (∀ l ∈ net.lines, (∀ bu ∈ net.buses, bu.id ≠ l.bus0) →
      ({ l with country := none } : Line) ∈ (annotateNetwork net).lines) ∧
    (∀ l ∈ net.links, (∀ bu ∈ net.buses, bu.id ≠ l.bus0) →
      ({ l with country := none } : Link) ∈ (annotateNetwork net).links) := by
  constructor <;>
  · intro l hl hmiss
    have hnone : lookupBusCountry net.buses l.bus0 = none := by
      unfold lookupBusCountry
      rw [List.find?_eq_none.mpr fun bu hbu => by simpa using hmiss bu hbu]
      rfl
    exact List.mem_map.mpr ⟨l, hl, by simp [hnone]⟩

theorem C3_missing_bus_silent_none_witness :
    ({ id := "l1", bus0 := "zz", bus1 := "b1", s_nom := 100, v_nom := 110,
       r := 1, x := 2, length := 30, country := none } : Line) ∈
      (annotateNetwork ⟨[⟨"b1", 10, 50, "AC", "DE"⟩],
        [⟨"l1", "zz", "b1", 100, 110, 1, 2, 30, none⟩], []⟩).lines :=
  (C3_missing_bus_silent_none
      ⟨[⟨"b1", 10, 50, "AC", "DE"⟩], [⟨"l1", "zz", "b1", 100, 110, 1, 2, 30, none⟩], []⟩).1
    ⟨"l1", "zz", "b1", 100, 110, 1, 2, 30, none⟩ (by decide) (by decide)

/-- Forget the country attribute of a line, the one attribute the loader
writes. -/
def Line.clearCountry (l : Line) : Line := { l with country := none }

/-- Forget the country attribute of a link. -/
def Link.clearCountry (lk : Link) : Link := { lk with country := none }

/-- C4: the loader leaves the bus table untouched and, apart from the country
attribute it writes, changes no attribute of any line or link; in particular
the element counts are preserved. -/
theorem C4_loader_frame (net : Network) :
    (annotateNetwork net).buses = net.buses ∧
    (annotateNetwork net).lines.map Line.clearCountry =
      net.lines.map Line.clearCountry ∧
    (annotateNetwork net).links.map Link.clearCountry =
      net.links.map Link.clearCountry ∧
    (annotateNetwork net).lines.length = net.lines.length ∧
    (annotateNetwork net).links.length = net.links.length := by
  refine ⟨rfl, ?_, ?_,
    by rw [annotateNetwork_lines, List.length_map],
    by rw [annotateNetwork_links, List.length_map]⟩
  · rw [annotateNetwork_lines, List.map_map]
    exact List.map_congr_left fun l _ => rfl
  · rw [annotateNetwork_links, List.map_map]
    exact List.map_congr_left fun l _ => rfl

/-! Helper lemmas about the 50Hertz marker loop. -/

theorem busMarkers50_eq_fold : ∀ (rows : List MergedRow) (seen : List String),
    busMarkers50 rows seen = markersFold (subEntries rows) seen := by
  intro rows
  induction rows with
  | nil => intro seen; rfl
  | cons row rest ih =>
    intro seen
    have hsub : subEntries (row :: rest) = (row.Sub1, row.lat1, row.lon1) ::
        (row.Sub2, row.lat2, row.lon2) :: subEntries rest := by
      simp [subEntries]
    rw [hsub]
    simp only [busMarkers50, markersFold]
    rw [ih]
    simp [List.append_assoc]

theorem markersFold_popup_not_seen : ∀ (es : List (String × ℚ × ℚ)) (seen : List String),
    ∀ mk ∈ markersFold es seen, mk.popup ∉ seen := by
  intro es
  induction es with
  | nil => intro seen mk hmk; simp [markersFold] at hmk
  | cons e es ih =>
    intro seen mk hmk
    by_cases h : e.1 ∈ seen
    · simp only [markersFold, markerStep, if_pos h, List.nil_append] at hmk
      exact ih seen mk hmk
    · simp only [markersFold, markerStep, if_neg h, List.singleton_append] at hmk
      rcases List.mem_cons.mp hmk with rfl | hmk
      · exact h
      · have hrest := ih (seen ++ [e.1]) mk hmk
        exact fun hc => hrest (List.mem_append_left _ hc)

theorem markersFold_popup_nodup : ∀ (es : List (String × ℚ × ℚ)) (seen : List String),
    ((markersFold es seen).map Marker.popup).Nodup := by
  intro es
  induction es with
  | nil => intro seen; simp [markersFold]
  | cons e es ih =>
    intro seen
    by_cases h : e.1 ∈ seen
    · simpa only [markersFold, markerStep, if_pos h, List.nil_append] using ih seen
    · simp only [markersFold, markerStep, if_neg h, List.singleton_append, List.map_cons,
        List.nodup_cons]
      refine ⟨fun hc => ?_, ih _⟩
      obtain ⟨mk, hmk, hpk⟩ := List.mem_map.mp hc
      exact markersFold_popup_not_seen es (seen ++ [e.1]) mk hmk
        (List.mem_append_right _ (by simp [hpk]))

theorem markersFold_popup_mem : ∀ (es : List (String × ℚ × ℚ)) (seen : List String)
    (s : String), s ∈ (markersFold es seen).map Marker.popup ↔
      (s ∈ es.map (fun e => e.1) ∧ s ∉ seen) := by
  intro es
  induction es with
  | nil => intro seen s; simp [markersFold]
  | cons e es ih =>
    intro seen s
    by_cases h : e.1 ∈ seen
    · simp only [markersFold, markerStep, if_pos h, List.nil_append, List.map_cons,
        List.mem_cons]
      rw [ih seen s]
      have he : s = e.1 → s ∈ seen := fun hh => hh ▸ h
      tauto
    · simp only [markersFold, markerStep, if_neg h, List.singleton_append, List.map_cons,
        List.mem_cons]
      rw [ih (seen ++ [e.1]) s]
      simp only [List.mem_append, List.mem_singleton]
      constructor
      · rintro (rfl | ⟨h1, h2⟩)
        · exact ⟨Or.inl rfl, h⟩
        · exact ⟨Or.inr h1, fun hc => h2 (Or.inl hc)⟩
      · rintro ⟨h1 | h1, h2⟩
        · exact Or.inl h1
        · by_cases hse : s = e.1
          · exact Or.inl hse
          · exact Or.inr ⟨h1, fun hc => hc.elim h2 hse⟩

theorem markersFold_first_coords : ∀ (es : List (String × ℚ × ℚ)) (seen : List String),
    ∀ mk ∈ markersFold es seen,
      es.find? (fun e => e.1 = mk.popup) = some (mk.popup, mk.lat, mk.lon) := by
  intro es
  induction es with
  | nil => intro seen mk hmk; simp [markersFold] at hmk
  | cons e es ih =>
    intro seen mk hmk
    by_cases h : e.1 ∈ seen
    · simp only [markersFold, markerStep, if_pos h, List.nil_append] at hmk
      have hne : ¬ e.1 = mk.popup :=
        fun hc => markersFold_popup_not_seen es seen mk hmk (hc ▸ h)
      rw [List.find?_cons_of_neg _ (by simpa using hne)]
      exact ih seen mk hmk
    · simp only [markersFold, markerStep, if_neg h, List.singleton_append] at hmk
      rcases List.mem_cons.mp hmk with rfl | hmk
      · rw [List.find?_cons_of_pos _ (by simp)]
      · have hne : ¬ e.1 = mk.popup := fun hc =>
          markersFold_popup_not_seen es (seen ++ [e.1]) mk hmk
            (List.mem_append_right _ (by simp [hc]))
        rw [List.find?_cons_of_neg _ (by simpa using hne)]
        exact ih _ mk hmk

/-- C7: the 50Hertz marker loop draws exactly one marker per distinct
substation name appearing in either endpoint column of the merged table (the
popup names are without duplicates and exhaust the endpoint names), and every
marker sits at the coordinates of the first endpoint entry carrying its name,
in loop order. -/
theorem C7_marker_dedup (rows : List MergedRow) :
    ((busMarkers50 rows []).map Marker.popup).Nodup ∧
    (∀ s : String, s ∈ (busMarkers50 rows []).map Marker.popup ↔
        s ∈ (subEntries rows).map (fun e => e.1)) ∧
    (∀ mk ∈ busMarkers50 rows [],
        (subEntries rows).find? (fun e => e.1 = mk.popup) =
          some (mk.popup, mk.lat, mk.lon)) := by
  rw [busMarkers50_eq_fold]
  refine ⟨markersFold_popup_nodup _ _, fun s => ?_,
    fun mk hmk => markersFold_first_coords _ _ mk hmk⟩
  rw [markersFold_popup_mem]
  simp

theorem C7_marker_dedup_witness :
    (subEntries [⟨"A B", 1, 3, 2, 4, 100, 110, 10, 10, 1, 50, "A", "B"⟩,
        ⟨"A C", 1, 7, 2, 8, 100, 110, 10, 10, 1, 50, "A", "C"⟩,
        ⟨"A D", 1, 9, 2, 11, 100, 110, 10, 10, 1, 50, "A", "D"⟩]).find?
      (fun e => e.1 = ("A" : String)) = some ("A", 2, 1) :=
  (C7_marker_dedup
      [⟨"A B", 1, 3, 2, 4, 100, 110, 10, 10, 1, 50, "A", "B"⟩,
       ⟨"A C", 1, 7, 2, 8, 100, 110, 10, 10, 1, 50, "A", "C"⟩,
       ⟨"A D", 1, 9, 2, 11, 100, 110, 10, 10, 1, 50, "A", "D"⟩]).2.2
    ⟨"A", 2, 1, "red"⟩ (by decide)

/-! Helper lemmas about the map composer. -/

theorem except_bind_ok {α β : Type} (a : α) (f : α → Except String β) :
    (Except.ok a >>= f : Except String β) = f a := rfl

theorem lookupCoords_ok {buses : List Bus} {key : String}
    (h : ∃ bu ∈ buses, bu.id = key) : ∃ c, lookupCoords buses key = .ok c := by
  obtain ⟨bu, hm, he⟩ := h
  have hs : (buses.find? (fun x => x.id = key)).isSome :=
    List.find?_isSome.mpr ⟨bu, hm, by simp [he]⟩
  obtain ⟨c0, hc0⟩ := Option.isSome_iff_exists.mp hs
  exact ⟨(c0.y, c0.x), by simp [lookupCoords, hc0]⟩

theorem mapE_ok_of_forall {α β : Type} {f : α → Except String β} :
    ∀ {l : List α}, (∀ a ∈ l, ∃ b, f a = .ok b) → ∃ bs, mapE f l = .ok bs := by
  intro l
  induction l with
  | nil => exact fun _ => ⟨[], rfl⟩
  | cons a as ih =>
    intro h
    obtain ⟨b, hb⟩ := h a (List.mem_cons_self a as)
    obtain ⟨bs, hbs⟩ := ih fun x hx => h x (List.mem_cons_of_mem a hx)
    exact ⟨b :: bs, by simp [mapE, hb, hbs, except_bind_ok]⟩

theorem polyOfLine_ok (color : String) {buses : List Bus} {l : Line}
    (h0 : ∃ bu ∈ buses, bu.id = l.bus0) (h1 : ∃ bu ∈ buses, bu.id = l.bus1) :
    ∃ p, polyOfLine buses color l = .ok p := by
  obtain ⟨c0, hc0⟩ := lookupCoords_ok h0
  obtain ⟨c1, hc1⟩ := lookupCoords_ok h1
  exact ⟨{ locA := c0, locB := c1, popupIndex := "",
           popupVals := [l.s_nom, l.length, l.v_nom, l.r, l.x], color := color },
    by rw [polyOfLine, hc0, except_bind_ok, hc1, except_bind_ok]⟩

theorem polyOfLink_ok (color : String) {buses : List Bus} {l : Link}
    (h0 : ∃ bu ∈ buses, bu.id = l.bus0) (h1 : ∃ bu ∈ buses, bu.id = l.bus1) :
    ∃ p, polyOfLink buses color l = .ok p := by
  obtain ⟨c0, hc0⟩ := lookupCoords_ok h0
  obtain ⟨c1, hc1⟩ := lookupCoords_ok h1
  exact ⟨{ locA := c0, locB := c1, popupIndex := l.id,
           popupVals := [l.p_nom, l.p_nom_max], color := color },
    by rw [polyOfLink, hc0, except_bind_ok, hc1, except_bind_ok]⟩

theorem linesDE_annotate_resolvable {net : Network} (hw : wellFormed net) :
    ∀ l ∈ linesDE (annotateNetwork net),
      (∃ bu ∈ (annotateNetwork net).buses, bu.id = l.bus0) ∧
      (∃ bu ∈ (annotateNetwork net).buses, bu.id = l.bus1) := by
  intro l hl
  have hl2 : l ∈ (annotateNetwork net).lines := List.mem_of_mem_filter hl
  rw [annotateNetwork_lines] at hl2
  obtain ⟨orig, ho, heq⟩ := List.mem_map.mp hl2
  have h0 : l.bus0 = orig.bus0 := by rw [← heq]
  have h1 : l.bus1 = orig.bus1 := by rw [← heq]
  rw [annotateNetwork_buses, h0, h1]
  exact hw.1 orig ho

theorem linksDE_annotate_resolvable {net : Network} (hw : wellFormed net) :
    ∀ l ∈ linksDE (annotateNetwork net),
      (∃ bu ∈ (annotateNetwork net).buses, bu.id = l.bus0) ∧
      (∃ bu ∈ (annotateNetwork net).buses, bu.id = l.bus1) := by
  intro l hl
  have hl2 : l ∈ (annotateNetwork net).links :=
    List.mem_of_mem_filter (List.mem_of_mem_filter hl)
  rw [annotateNetwork_links] at hl2
  obtain ⟨orig, ho, heq⟩ := List.mem_map.mp hl2
  have h0 : l.bus0 = orig.bus0 := by rw [← heq]
  have h1 : l.bus1 = orig.bus1 := by rw [← heq]
  rw [annotateNetwork_buses, h0, h1]
  exact hw.2 orig ho

theorem composeMap_ok (netz : List MergedRow) (n m : Network)
    (hn : n.buses ≠ [])
    (hlnN : ∀ l ∈ linesDE n,
      (∃ bu ∈ n.buses, bu.id = l.bus0) ∧ (∃ bu ∈ n.buses, bu.id = l.bus1))
    (hlnM : ∀ l ∈ linesDE m,
      (∃ bu ∈ m.buses, bu.id = l.bus0) ∧ (∃ bu ∈ m.buses, bu.id = l.bus1))
    (hlkM : ∀ l ∈ linksDE m,
      (∃ bu ∈ m.buses, bu.id = l.bus0) ∧ (∃ bu ∈ m.buses, bu.id = l.bus1))
    (hlkN : ∀ l ∈ linksDE n,
      (∃ bu ∈ n.buses, bu.id = l.bus0) ∧ (∃ bu ∈ n.buses, bu.id = l.bus1)) :
    ∃ fm, composeMap netz n m = .ok fm ∧
      fm.layers.map Layer.name = ["PyPSA-Eur buses", "PyPSA-Earth buses", "50Hertz buses",
        "PyPSA-Eur lines", "PyPSA-Earth lines", "PyPSA-Earth links", "PyPSA-Eur links",
        "50Hertz lines"] := by
  obtain ⟨bu, rest, hb⟩ : ∃ bu rest, n.buses = bu :: rest := by
    cases hbn : n.buses with
    | nil => exact absurd hbn hn
    | cons a l => exact ⟨a, l, rfl⟩
  have hc : mapCenter n = .ok (bu.y, bu.x) := by simp [mapCenter, hb]
  obtain ⟨ps1, hE1⟩ := mapE_ok_of_forall fun l hl =>
    polyOfLine_ok "gray" (hlnN l hl).1 (hlnN l hl).2
  obtain ⟨ps2, hE2⟩ := mapE_ok_of_forall fun l hl =>
    polyOfLine_ok "black" (hlnM l hl).1 (hlnM l hl).2
  obtain ⟨ps3, hE3⟩ := mapE_ok_of_forall fun l hl =>
    polyOfLink_ok "black" (hlkM l hl).1 (hlkM l hl).2
  obtain ⟨ps4, hE4⟩ := mapE_ok_of_forall fun l hl =>
    polyOfLink_ok "gray" (hlkN l hl).1 (hlkN l hl).2
  refine ⟨{ center := (bu.y, bu.x), layers := [
    { name := "PyPSA-Eur buses", markers := busMarkersModel n "gray", polylines := [] },
    { name := "PyPSA-Earth buses", markers := busMarkersModel m "black", polylines := [] },
    { name := "50Hertz buses", markers := busMarkers50 netz [], polylines := [] },
    { name := "PyPSA-Eur lines", markers := [], polylines := ps1 },
    { name := "PyPSA-Earth lines", markers := [], polylines := ps2 },
    { name := "PyPSA-Earth links", markers := [], polylines := ps3 },
    { name := "PyPSA-Eur links", markers := [], polylines := ps4 },
    { name := "50Hertz lines", markers := [], polylines := lines50 netz } ] }, ?_, rfl⟩
  rw [composeMap, hc, except_bind_ok, hE1, except_bind_ok, hE2, except_bind_ok,
    hE3, except_bind_ok, hE4, except_bind_ok]

/-- C5 fails as stated: all of the stated preconditions can hold (two
reference rows sharing a line_name, each model holding an in-region AC bus
and an in-region line) while an in-region line of the first model references
a bus index absent from its bus table, and then the run aborts with a
KeyError instead of producing the map. -/
theorem C5_counterexample :
    ((⟨"A", 1, 2, "B", 3, 4, 100, 110, 10, 10, 1, 50⟩ : Row) ∈
        [(⟨"A", 1, 2, "B", 3, 4, 100, 110, 10, 10, 1, 50⟩ : Row),
         ⟨"B", 3, 4, "A", 1, 2, 100, 110, 10, 10, 1, 50⟩] ∧
      (⟨"B", 3, 4, "A", 1, 2, 100, 110, 10, 10, 1, 50⟩ : Row) ∈
        [(⟨"A", 1, 2, "B", 3, 4, 100, 110, 10, 10, 1, 50⟩ : Row),
         ⟨"B", 3, 4, "A", 1, 2, 100, 110, 10, 10, 1, 50⟩] ∧
      (⟨"A", 1, 2, "B", 3, 4, 100, 110, 10, 10, 1, 50⟩ : Row) ≠
        ⟨"B", 3, 4, "A", 1, 2, 100, 110, 10, 10, 1, 50⟩ ∧
      lineName ⟨"A", 1, 2, "B", 3, 4, 100, 110, 10, 10, 1, 50⟩ =
        lineName ⟨"B", 3, 4, "A", 1, 2, 100, 110, 10, 10, 1, 50⟩ ∧
      (∃ bu ∈ (⟨[⟨"eb1", 13, 52, "AC", "DE"⟩],
          [⟨"el1", "eb1", "ghost", 100, 110, 1, 2, 30, none⟩], []⟩ : Network).buses,
        bu.country = "DE" ∧ bu.carrier = "AC") ∧
      (∃ l ∈ (⟨[⟨"eb1", 13, 52, "AC", "DE"⟩],
          [⟨"el1", "eb1", "ghost", 100, 110, 1, 2, 30, none⟩], []⟩ : Network).lines,
        lookupBusCountry [⟨"eb1", 13, 52, "AC", "DE"⟩] l.bus0 = some "DE") ∧
      (∃ bu ∈ (⟨[⟨"mb1", 13, 52, "AC", "DE"⟩, ⟨"mb2", 14, 53, "AC", "DE"⟩],
          [⟨"ml1", "mb1", "mb2", 100, 110, 1, 2, 30, none⟩], []⟩ : Network).buses,
        bu.country = "DE" ∧ bu.carrier = "AC") ∧
      (∃ l ∈ (⟨[⟨"mb1", 13, 52, "AC", "DE"⟩, ⟨"mb2", 14, 53, "AC", "DE"⟩],
          [⟨"ml1", "mb1", "mb2", 100, 110, 1, 2, 30, none⟩], []⟩ : Network).lines,
        lookupBusCountry [⟨"mb1", 13, 52, "AC", "DE"⟩, ⟨"mb2", 14, 53, "AC", "DE"⟩]
          l.bus0 = some "DE")) ∧
    isOkE (runPipeline
      [⟨"A", 1, 2, "B", 3, 4, 100, 110, 10, 10, 1, 50⟩,
       ⟨"B", 3, 4, "A", 1, 2, 100, 110, 10, 10, 1, 50⟩]
      ⟨[⟨"eb1", 13, 52, "AC", "DE"⟩],
        [⟨"el1", "eb1", "ghost", 100, 110, 1, 2, 30, none⟩], []⟩
      ⟨[⟨"mb1", 13, 52, "AC", "DE"⟩, ⟨"mb2", 14, 53, "AC", "DE"⟩],
        [⟨"ml1", "mb1", "mb2", 100, 110, 1, 2, 30, none⟩], []⟩) = false :=
  ⟨by decide, rfl⟩

/-- C5 amended: given a reference table holding two rows sharing a line_name
and two well-formed model snapshots (every line and link endpoint references
an existing bus) each containing at least one in-region AC bus and one
in-region line, the run completes without raising and the resulting map holds
exactly the eight named overlay layers. -/
theorem C5_end_to_end (raw : List Row) (r1 r2 : Row) (n0 m0 : Network)
    (hr1 : r1 ∈ raw) (hr2 : r2 ∈ raw) (hkey : lineName r1 = lineName r2)
    (hw1 : wellFormed n0) (hw2 : wellFormed m0)
    (hb1 : ∃ bu ∈ n0.buses, bu.country = "DE" ∧ bu.carrier = "AC")
    (hb2 : ∃ bu ∈ m0.buses, bu.country = "DE" ∧ bu.carrier = "AC")
    (hl1 : ∃ l ∈ n0.lines, lookupBusCountry n0.buses l.bus0 = some "DE")
    (hl2 : ∃ l ∈ m0.lines, lookupBusCountry m0.buses l.bus0 = some "DE") :
    ∃ fm, runPipeline raw n0 m0 = .ok fm ∧
      fm.layers.map Layer.name = ["PyPSA-Eur buses", "PyPSA-Earth buses", "50Hertz buses",
        "PyPSA-Eur lines", "PyPSA-Earth lines", "PyPSA-Earth links", "PyPSA-Eur links",
        "50Hertz lines"] ∧
      List.Perm (fm.layers.map Layer.name)
        ["PyPSA-Eur buses", "PyPSA-Earth buses", "50Hertz buses", "PyPSA-Eur lines",
         "PyPSA-Earth lines", "PyPSA-Eur links", "PyPSA-Earth links", "50Hertz lines"] ∧
      (fm.layers.map Layer.name).Nodup := by
  have hn : (annotateNetwork n0).buses ≠ [] := by
    rw [annotateNetwork_buses]
    obtain ⟨bu, hbu, _⟩ := hb1
    intro hc
    rw [hc] at hbu
    exact (List.not_mem_nil bu) hbu
  obtain ⟨fm, hfm, hnames⟩ := composeMap_ok (groupbyAgg raw)
    (annotateNetwork n0) (annotateNetwork m0) hn
    (linesDE_annotate_resolvable hw1) (linesDE_annotate_resolvable hw2)
    (linksDE_annotate_resolvable hw2) (linksDE_annotate_resolvable hw1)
  refine ⟨fm, hfm, hnames, ?_, ?_⟩ <;> rw [hnames] <;> decide

theorem C5_end_to_end_witness :
    ∃ fm, runPipeline
      [⟨"A", 1, 2, "B", 3, 4, 100, 110, 10, 10, 1, 50⟩,
       ⟨"B", 3, 4, "A", 1, 2, 100, 110, 10, 10, 1, 50⟩]
      ⟨[⟨"eb1", 13, 52, "AC", "DE"⟩, ⟨"eb2", 14, 53, "AC", "DE"⟩],
        [⟨"el1", "eb1", "eb2", 100, 110, 1, 2, 30, none⟩], []⟩
      ⟨[⟨"mb1", 13, 52, "AC", "DE"⟩, ⟨"mb2", 14, 53, "AC", "DE"⟩],
        [⟨"ml1", "mb1", "mb2", 100, 110, 1, 2, 30, none⟩], []⟩ = .ok fm ∧
      fm.layers.map Layer.name = ["PyPSA-Eur buses", "PyPSA-Earth buses", "50Hertz buses",
        "PyPSA-Eur lines", "PyPSA-Earth lines", "PyPSA-Earth links", "PyPSA-Eur links",
        "50Hertz lines"] ∧
      List.Perm (fm.layers.map Layer.name)
        ["PyPSA-Eur buses", "PyPSA-Earth buses", "50Hertz buses", "PyPSA-Eur lines",
         "PyPSA-Earth lines", "PyPSA-Eur links", "PyPSA-Earth links", "50Hertz lines"] ∧
      (fm.layers.map Layer.name).Nodup :=
  C5_end_to_end
    [⟨"A", 1, 2, "B", 3, 4, 100, 110, 10, 10, 1, 50⟩,
     ⟨"B", 3, 4, "A", 1, 2, 100, 110, 10, 10, 1, 50⟩]
    ⟨"A", 1, 2, "B", 3, 4, 100, 110, 10, 10, 1, 50⟩
    ⟨"B", 3, 4, "A", 1, 2, 100, 110, 10, 10, 1, 50⟩
    ⟨[⟨"eb1", 13, 52, "AC", "DE"⟩, ⟨"eb2", 14, 53, "AC", "DE"⟩],
      [⟨"el1", "eb1", "eb2", 100, 110, 1, 2, 30, none⟩], []⟩
    ⟨[⟨"mb1", 13, 52, "AC", "DE"⟩, ⟨"mb2", 14, 53, "AC", "DE"⟩],
      [⟨"ml1", "mb1", "mb2", 100, 110, 1, 2, 30, none⟩], []⟩
    (by decide) (by decide) (by decide) (by decide) (by decide) (by decide)
    (by decide) (by decide) (by decide)

end GridAnalysis
